import Mathlib

/-!
Verification of the Shot Memory Store & Course Insight Engine of the
caddie-ai backend (`src/index.js`) against its natural-language
specification.

Modelling conventions (shallow embedding of the JavaScript source):

* A stored shot record is a Lean structure carrying exactly the fields the
  core logic reads; fields that the store writes but no claim-relevant code
  ever inspects (file paths, lat/lon, image URLs) are omitted.
* JavaScript numbers that only ever hold counts or exact small values are
  `Nat`/`Int`; values on which the code performs division are `ℚ`.  (All
  threshold comparisons performed by the source on IEEE doubles —
  `helpfulPct < 50`, `helpfulPct >= 70`, `negativeRatio > 0.5` — coincide
  with exact rational comparison for every count below 2^51, so the ℚ
  model is faithful on the whole reachable state space.)
* Optional / possibly-`undefined` fields are `Option`; JavaScript
  truthiness tests on strings (`if (shotType)`, `.filter(Boolean)`,
  `a || b`) are modelled explicitly: `none` and `some ""` are falsy.
* ISO-8601 timestamp strings are represented by their parsed epoch
  value (`Option Nat`): the code only ever consumes them through
  `new Date(...)` comparisons, and absent/empty strings (falsy, hence
  short-circuited by `||`) are `none`.
* The persisted JSON document is a `List ShotRecord` (the store file holds
  one JSON array); each store operation is a function from the loaded
  state to the saved state.
-/

/-- JavaScript truthiness of a possibly-absent string: `undefined`, `null`
and `""` are falsy, every other string is truthy. -/
def truthyS : Option String → Bool
  | none => false
  | some s => s ≠ ""

/-- First-occurrence deduplication, as performed by `[...new Set(xs)]` and
by object-key insertion in the source. -/
def uniq {α : Type} [DecidableEq α] (l : List α) : List α :=
  l.foldl (fun acc x => if x ∈ acc then acc else acc ++ [x]) []

theorem mem_uniq_foldl {α : Type} [DecidableEq α] (l : List α) (acc : List α) (x : α) :
    x ∈ l.foldl (fun acc x => if x ∈ acc then acc else acc ++ [x]) acc ↔ x ∈ acc ∨ x ∈ l := by
  induction l generalizing acc with
  | nil => simp
  | cons a l ih =>
      simp only [List.foldl_cons, List.mem_cons]
      by_cases ha : a ∈ acc
      · rw [if_pos ha, ih]
        constructor
        · rintro (h | h)
          · exact Or.inl h
          · exact Or.inr (Or.inr h)
        · rintro (h | h | h)
          · exact Or.inl h
          · exact Or.inl (h ▸ ha)
          · exact Or.inr h
      · rw [if_neg ha, ih]
        simp only [List.mem_append, List.mem_singleton]
        tauto

theorem mem_uniq {α : Type} [DecidableEq α] (l : List α) (x : α) :
    x ∈ uniq l ↔ x ∈ l := by
  rw [uniq, mem_uniq_foldl]
  simp

section SortDescBy

variable {α β : Type} [LinearOrder β]

/-- Insertion of one element into a list kept in descending `key` order;
building block for the model of `Array.prototype.sort` with a
`(a, b) => keyOf(b) - keyOf(a)` comparator. -/
def insertDescBy (key : α → β) (a : α) : List α → List α
  | [] => [a]
  | b :: l => if key b ≤ key a then a :: b :: l else b :: insertDescBy key a l

/-- Model of the source's `sort((a, b) => key(b) - key(a))`: a sort that is
descending in `key`. -/
def sortDescBy (key : α → β) : List α → List α
  | [] => []
  | a :: l => insertDescBy key a (sortDescBy key l)

theorem mem_insertDescBy (key : α → β) (a x : α) (l : List α) :
    x ∈ insertDescBy key a l ↔ x = a ∨ x ∈ l := by
  induction l with
  | nil => simp [insertDescBy]
  | cons b l ih =>
      by_cases h : key b ≤ key a
      · simp [insertDescBy, h]
      · simp only [insertDescBy, if_neg h, List.mem_cons, ih]
        tauto

theorem mem_sortDescBy (key : α → β) (x : α) (l : List α) :
    x ∈ sortDescBy key l ↔ x ∈ l := by
  induction l with
  | nil => simp [sortDescBy]
  | cons a l ih => simp [sortDescBy, mem_insertDescBy, ih]

/-- The descending-order invariant used for sort results. -/
def DescendingBy (key : α → β) (l : List α) : Prop :=
  l.Pairwise (fun a b => key b ≤ key a)

theorem descendingBy_insertDescBy (key : α → β) (a : α) (l : List α)
    (h : DescendingBy key l) : DescendingBy key (insertDescBy key a l) := by
  induction l with
  | nil => simp [insertDescBy, DescendingBy]
  | cons b l ih =>
      rw [DescendingBy, List.pairwise_cons] at h
      obtain ⟨hb, hl⟩ := h
      by_cases hba : key b ≤ key a
      · rw [insertDescBy, if_pos hba, DescendingBy, List.pairwise_cons]
        refine ⟨?_, ?_⟩
        · intro x hx
          rcases List.mem_cons.mp hx with hx | hx
          · exact hx ▸ hba
          · exact le_trans (hb x hx) hba
        · rw [List.pairwise_cons]
          exact ⟨hb, hl⟩
      · rw [insertDescBy, if_neg hba, DescendingBy, List.pairwise_cons]
        refine ⟨?_, ih hl⟩
        intro x hx
        rcases (mem_insertDescBy key a x l).mp hx with hx | hx
        · exact hx ▸ le_of_lt (lt_of_not_le hba)
        · exact hb x hx

theorem descendingBy_sortDescBy (key : α → β) (l : List α) :
    DescendingBy key (sortDescBy key l) := by
  induction l with
  | nil => simp [sortDescBy, DescendingBy]
  | cons a l ih => exact descendingBy_insertDescBy key a _ ih

end SortDescBy

/-! ## Data model (spec §3, `src/index.js` record shapes) -/

/-- The `recommendation` object attached to an analyzed shot
(`src/index.js` lines 601–606). -/
structure Recommendation where
  club : String
  aim : String
  avoid : String
  confidence : ℚ
deriving Repr, DecidableEq

/-- The `conditions` object inside a shot context (wind / elevation
strings, `src/index.js` lines 617–620). -/
structure ShotConditions where
  wind : Option String
  elevation : Option String
deriving Repr, DecidableEq

/-- The `shotContext` object (`src/index.js` lines 614–621). -/
structure ShotContext where
  surface : Option String
  conditions : Option ShotConditions
deriving Repr, DecidableEq

/-- One persisted shot record.  Timestamps carry their parsed epoch value;
`none` stands for an absent (or falsy) field. -/
structure ShotRecord where
  id : String
  courseId : String
  holeNumber : Int
  shotType : Option String
  recommendation : Option Recommendation
  shotContext : Option ShotContext
  clubUsed : Option String
  suggestedClub : Option String
  distance : Option ℚ
  userFeedback : Option String
  feedbackTimestamp : Option String
  timestamp : Option Nat
  uploadedAt : Option Nat
deriving Repr, DecidableEq

/-- The persisted collection: one JSON array of records. -/
abbrev Store := List ShotRecord

/-! ## Record Store (`src/index.js` lines 53–111) -/

/-- `loadShots` (lines 53–68), with the filesystem and `JSON.parse`
abstracted as parameters: `doc` is the raw document (`none` when
`shots.json` does not exist) and `parse` is the JSON decoding step
(`none` when `JSON.parse` throws, which the `catch` turns into `[]`). -/
def loadShots (doc : Option String) (parse : String → Option Store) : Store :=
  match doc with
  | none => []
  | some raw =>
      match parse raw with
      | some shots => shots
      | none => []

/-- `addShot` (lines 92–96): load, `push`, save — one whole-collection
read-modify-write cycle, modelled as a state transition on the store. -/
def addShot (shots : Store) (shotData : ShotRecord) : Store :=
  shots ++ [shotData]

/-- `updateShotFeedback` (lines 101–111): find the first record with the
given id, set its `userFeedback` and `feedbackTimestamp`, and report
whether a record was found.  When no record matches, nothing is saved. -/
def updateShotFeedback (now : String) (shotId : String) (feedback : String) :
    Store → Store × Bool
  | [] => ([], false)
  | s :: rest =>
      if s.id = shotId then
        ({ s with userFeedback := some feedback, feedbackTimestamp := some now } :: rest, true)
      else
        let r := updateShotFeedback now shotId feedback rest
        (s :: r.1, r.2)

/-- The standalone feedback record built by the `/api/feedback/caddie`
handler when no `shotId` is supplied (lines 442–450). -/
def feedbackOnlyRecord (newId : String) (courseId : String) (hole : Int)
    (suggestedClub : Option String) (feedback : String) (now : String) (nowMs : Nat) :
    ShotRecord :=
  { id := newId
    courseId := courseId
    holeNumber := hole
    shotType := none
    recommendation := none
    shotContext := none
    clubUsed := none
    suggestedClub := suggestedClub
    distance := none
    userFeedback := some feedback
    feedbackTimestamp := some now
    timestamp := some nowMs
    uploadedAt := none }

/-- The `/api/feedback/caddie` handler (lines 423–459): a truthy `shotId`
delegates to `updateShotFeedback` (ignoring its result), otherwise a
feedback-only record is appended; either way the caller receives
`{ ok: true }` (modelled by the `Bool`). -/
def submitFeedback (now : String) (nowMs : Nat) (newId : String)
    (shotId : Option String) (courseId : String) (hole : Int)
    (suggestedClub : Option String) (feedback : String) (shots : Store) :
    Store × Bool :=
  if truthyS shotId then
    ((updateShotFeedback now (shotId.getD "") feedback shots).1, true)
  else
    (addShot shots (feedbackOnlyRecord newId courseId hole suggestedClub feedback now nowMs), true)

/-- The shot record persisted by `/api/photo/analyze` (lines 626–635):
`userFeedback` always starts out `null`. -/
def analyzeShotRecord (newId : String) (courseId : String) (hole : Int)
    (shotType : String) (clubUsed : Option String) (distance : Option ℚ)
    (recommendation : Recommendation) (shotContext : ShotContext)
    (ts uploadedAt : Option Nat) : ShotRecord :=
  { id := newId
    courseId := courseId
    holeNumber := hole
    shotType := some shotType
    recommendation := some recommendation
    shotContext := some shotContext
    clubUsed := clubUsed
    suggestedClub := none
    distance := distance
    userFeedback := none
    feedbackTimestamp := none
    timestamp := ts
    uploadedAt := uploadedAt }

/-! ## Relevance Matcher (`src/index.js` lines 116–140) -/

/-- `shot.recommendation?.club`: optional chaining through the
recommendation object. -/
def recClub (shot : ShotRecord) : Option String :=
  shot.recommendation.map (·.club)

/-- The filter predicate of `findRelevantShots` (lines 119–133): the
course must match; the hole must match exactly; a truthy `shotType`
argument must equal the record's `shotType`; a truthy `club` argument
must equal `recommendation?.club`. -/
def matchesQuery (courseId : String) (holeNumber : Int)
    (shotType club : Option String) (shot : ShotRecord) : Bool :=
  if shot.courseId ≠ courseId then false
  else if shot.holeNumber = holeNumber then
    if truthyS shotType = true ∧ shot.shotType ≠ shotType then false
    else if truthyS club = true ∧ recClub shot ≠ club then false
    else true
  else false

/-- `a.timestamp || a.uploadedAt || 0` (lines 136–137), on parsed
timestamp values. -/
def bestTime (shot : ShotRecord) : Nat :=
  shot.timestamp.getD (shot.uploadedAt.getD 0)

/-- `findRelevantShots` (lines 116–140): filter then sort newest-first by
`bestTime`. -/
def findRelevantShots (courseId : String) (holeNumber : Int)
    (shotType club : Option String) (shots : Store) : List ShotRecord :=
  sortDescBy bestTime (shots.filter (matchesQuery courseId holeNumber shotType club))

theorem matchesQuery_iff (courseId : String) (holeNumber : Int)
    (shotType club : Option String) (shot : ShotRecord) :
    matchesQuery courseId holeNumber shotType club shot = true ↔
      shot.courseId = courseId ∧ shot.holeNumber = holeNumber ∧
      (truthyS shotType = true → shot.shotType = shotType) ∧
      (truthyS club = true → recClub shot = club) := by
  rw [matchesQuery]
  split_ifs with h1 h2 h3 h4 <;> simp_all

/-! ## Insight Synthesizer (`src/index.js` lines 145–217) -/

/-- `shot.shotType || "unknown"` (line 155). -/
def typeKey (shot : ShotRecord) : String :=
  match shot.shotType with
  | some s => if s = "" then "unknown" else s
  | none => "unknown"

/-- Number of records in a group whose `userFeedback` is exactly
`"helpful"` (line 169). -/
def helpfulCount (l : List ShotRecord) : Nat :=
  (l.filter (fun s => s.userFeedback = some "helpful")).length

/-- Number of records in a group whose `userFeedback` is exactly `"off"`
(line 170). -/
def offCount (l : List ShotRecord) : Nat :=
  (l.filter (fun s => s.userFeedback = some "off")).length

/-- `[...new Set(holeShots.map(s => s.recommendation?.club).filter(Boolean))]`
(lines 178 and 185). -/
def clubsUsed (l : List ShotRecord) : List String :=
  uniq (l.filterMap (fun s =>
    match recClub s with
    | some c => if c = "" then none else some c
    | none => none))

/-- `contexts = holeShots.map(s => s.shotContext).filter(Boolean)`
(line 194). -/
def contextsOf (l : List ShotRecord) : List ShotContext :=
  l.filterMap (·.shotContext)

/-- `contexts.map(c => c.conditions?.elevation).filter(Boolean)` distinct
values (line 197). -/
def groupElevations (l : List ShotRecord) : List String :=
  uniq ((contextsOf l).filterMap (fun c =>
    match c.conditions.bind (·.elevation) with
    | some e => if e = "" then none else some e
    | none => none))

/-- One sentence pushed onto the `insights` array, kept in structured form
(the decision data the source interpolates into each template string). -/
inductive InsightItem where
  | negPattern (shotType : String) (hole : Int) (off helpful : Nat) (clubs : List String)
  | posPattern (shotType : String) (hole : Int) (helpful off : Nat) (clubs : List String)
  | uphillNote (hole : Int) (elevCount : Nat)
  | roughNote (hole : Int) (roughCount : Nat)
deriving Repr, DecidableEq

/-- The template strings of lines 179–211, rendered from an item. -/
def renderItem : InsightItem → String
  | .negPattern shotType hole off helpful clubs =>
      "Previous " ++ shotType ++ " shots on Hole " ++ toString hole ++
      " received mostly negative feedback (" ++ toString off ++ " off, " ++
      toString helpful ++ " helpful). Clubs used: " ++ String.intercalate ", " clubs ++
      ". Consider adjusting recommendations."
  | .posPattern shotType hole helpful off clubs =>
      "Previous " ++ shotType ++ " shots on Hole " ++ toString hole ++
      " received positive feedback (" ++ toString helpful ++ " helpful, " ++
      toString off ++ " off). Successful clubs: " ++ String.intercalate ", " clubs ++ "."
  | .uphillNote hole elevCount =>
      "Hole " ++ toString hole ++ " has uphill elevation (" ++ toString elevCount ++
      " previous shots). Previous drives on this hole tend to land short. " ++
      "Adjust recommendation accordingly."
  | .roughNote hole roughCount =>
      "Hole " ++ toString hole ++ " often has rough conditions (" ++ toString roughCount ++
      " previous shots). Consider club selection for rough lies."

/-- `helpfulPct < 50` (line 176), on the exact rationals the doubles of
the source denote at these counts. -/
def NegSignal (holeShots : List ShotRecord) : Prop :=
  ((helpfulCount holeShots : ℚ) /
      ((helpfulCount holeShots : ℚ) + (offCount holeShots : ℚ))) * 100 < 50 ∧
  0 < offCount holeShots

/-- `helpfulPct >= 70 && helpfulCount >= 2` (line 183). -/
def PosSignal (holeShots : List ShotRecord) : Prop :=
  ((helpfulCount holeShots : ℚ) /
      ((helpfulCount holeShots : ℚ) + (offCount holeShots : ℚ))) * 100 ≥ 70 ∧
  2 ≤ helpfulCount holeShots

instance (holeShots : List ShotRecord) : Decidable (NegSignal holeShots) :=
  inferInstanceAs (Decidable (_ ∧ _))

instance (holeShots : List ShotRecord) : Decidable (PosSignal holeShots) :=
  inferInstanceAs (Decidable (_ ∧ _))

/-- The feedback-statistic sentence of one group (lines 173–191): a
negative-pattern sentence when the helpful percentage is under 50 with at
least one "off", else a positive-pattern sentence when the percentage is
at least 70 with at least two "helpful", else nothing. -/
def feedbackItemsOf (shotType : String) (hole : Int) (holeShots : List ShotRecord) :
    List InsightItem :=
  if 0 < helpfulCount holeShots + offCount holeShots then
    if NegSignal holeShots then
      [.negPattern shotType hole (offCount holeShots) (helpfulCount holeShots)
        (clubsUsed holeShots)]
    else if PosSignal holeShots then
      [.posPattern shotType hole (helpfulCount holeShots) (offCount holeShots)
        (clubsUsed holeShots)]
    else []
  else []

/-- The context sentences of one group (lines 193–212): the elevation
sentence, then the rough sentence. -/
def contextItemsOf (hole : Int) (holeShots : List ShotRecord) : List InsightItem :=
  (if (groupElevations holeShots).length > 0 ∧
      (groupElevations holeShots).any (fun e => e.contains '+') then
    [.uphillNote hole ((groupElevations holeShots).filter (fun e => e.contains '+')).length]
  else []) ++
  (if "rough" ∈ (contextsOf holeShots).filterMap (·.surface) ∧ holeShots.length ≥ 2 then
    [.roughNote hole
      ((contextsOf holeShots).filter (fun c => c.surface = some "rough")).length]
  else [])

/-- The sentences pushed for one `(shotType, holeNumber)` group
(lines 168–212), in push order: the feedback-statistic sentence (negative
or positive, lines 173–191), then the elevation sentence (lines 199–204),
then the rough sentence (lines 206–211). -/
def groupItems (shotType : String) (hole : Int) (holeShots : List ShotRecord) :
    List InsightItem :=
  feedbackItemsOf shotType hole holeShots ++ contextItemsOf hole holeShots

/-- All sentences produced by `generateInsightsFromHistory`
(lines 145–217), visiting shot-type groups in first-appearance order and,
within a type, holes in first-appearance order. -/
def insightItems (relevantShots : List ShotRecord) : List InsightItem :=
  (uniq (relevantShots.map typeKey)).flatMap (fun t =>
    let typeShots := relevantShots.filter (fun s => typeKey s = t)
    (uniq (typeShots.map (·.holeNumber))).flatMap (fun h =>
      groupItems t h (typeShots.filter (fun s => s.holeNumber = h))))

/-- `generateInsightsFromHistory` (lines 145–217): empty input yields `""`,
otherwise the rendered sentences joined by blank lines. -/
def generateInsightsFromHistory (relevantShots : List ShotRecord) : String :=
  if relevantShots.length = 0 then ""
  else String.intercalate "\n\n" ((insightItems relevantShots).map renderItem)

/-! ## Course Intelligence Aggregator (`src/index.js` lines 696–957) -/

/-- The shots of one hole within the course's shots (`shotsByHole[hole]`,
lines 727–734): grouping preserves the store's order. -/
def holeShotsOf (courseShots : List ShotRecord) (hole : Int) : List ShotRecord :=
  courseShots.filter (fun s => s.holeNumber = hole)

/-- `Object.keys(shotsByHole)`: the distinct hole numbers.  JavaScript
enumerates integer-like keys in ascending numeric order, modelled by
sorting the distinct holes ascending (descending by negation). -/
def holesOf (courseShots : List ShotRecord) : List Int :=
  sortDescBy (fun h => -h) (uniq (courseShots.map (·.holeNumber)))

/-- `shots.filter(s => s.userFeedback).length` (line 754): records whose
`userFeedback` is truthy. -/
def feedbackCount (l : List ShotRecord) : Nat :=
  (l.filter (fun s => truthyS s.userFeedback)).length

/-- The `avgOverPar` value computed for one hole (lines 758–765): zero
unless there is feedback and the negative ratio strictly exceeds one half,
in which case it is the negative ratio doubled. -/
def trickyScore (holeShots : List ShotRecord) : ℚ :=
  let negativeFeedback := offCount holeShots
  let totalFeedback := feedbackCount holeShots
  if totalFeedback > 0 then
    let negativeRatio : ℚ := (negativeFeedback : ℚ) / (totalFeedback : ℚ)
    if negativeRatio > 1/2 then negativeRatio * 2 else 0
  else 0

/-- Rounding to one decimal place with ties away from zero on nonnegative
values: the value denoted by `Number.prototype.toFixed(1)` (and recovered
by the `parseFloat` in the tricky-hole sort comparator). -/
def roundTenths (q : ℚ) : ℚ :=
  (⌊q * 10 + 1/2⌋ : ℚ) / 10

/-- The decimal string `toFixed(1)` produces for the nonnegative scores at
hand. -/
def formatFixed1 (q : ℚ) : String :=
  let n : Int := ⌊q * 10 + 1/2⌋
  toString (n / 10) ++ "." ++ toString (n % 10)

/-- `elevations.some(e => e && e.includes("+"))` over one hole's contexts
(lines 768–770). -/
def holeHasUphill (holeShots : List ShotRecord) : Bool :=
  ((contextsOf holeShots).filterMap (fun c =>
    match c.conditions.bind (·.elevation) with
    | some e => if e = "" then none else some e
    | none => none)).any (fun e => e.contains '+')

/-- One entry of `trickyHoles` (lines 782–786).  `avgOverPar` is the
`toFixed(1)` string; `score` is the numeric value that string denotes
(what `parseFloat` recovers in the sort comparator of line 791). -/
structure TrickyHole where
  hole : Int
  avgOverPar : String
  score : ℚ
  note : String
deriving Repr, DecidableEq

/-- The note attached to a tricky hole (lines 773–780): uphill wins over
repeated negative feedback, which wins over the generic text. -/
def trickyNote (holeShots : List ShotRecord) : String :=
  if holeHasUphill holeShots then "Uphill approach, user underclubs"
  else if offCount holeShots ≥ 2 then
    "User had difficulty with " ++ toString (offCount holeShots) ++ " previous shots"
  else "Challenging hole based on shot history"

/-- `trickyHoles` (lines 747–791): per hole, include it when the score is
positive, the contexts show uphill elevation, or there are at least two
"off" feedbacks; then sort descending by the parsed `avgOverPar`. -/
def trickyHoles (courseShots : List ShotRecord) : List TrickyHole :=
  sortDescBy (fun t => t.score)
    ((holesOf courseShots).filterMap (fun h =>
      let hs := holeShotsOf courseShots h
      if trickyScore hs > 0 ∨ holeHasUphill hs ∨ offCount hs ≥ 2 then
        some { hole := h
               avgOverPar := formatFixed1 (trickyScore hs)
               score := roundTenths (trickyScore hs)
               note := trickyNote hs }
      else none))

/-- `shot.recommendation?.club || shot.clubUsed` (line 796), skipping
falsy results (line 797). -/
def clubKey (shot : ShotRecord) : Option String :=
  let fromRec : Option String :=
    match recClub shot with
    | some c => if c = "" then none else some c
    | none => none
  match fromRec with
  | some c => some c
  | none =>
      match shot.clubUsed with
      | some c => if c = "" then none else some c
      | none => none

/-- `if (shot.distance) distances.push(shot.distance)` (lines 807–809): a
distance contributes only when truthy — present and nonzero. -/
def distSample (shot : ShotRecord) : Option ℚ :=
  match shot.distance with
  | some d => if d = 0 then none else some d
  | none => none

/-- The distance samples accumulated for one club across the course's
shots (lines 794–811). -/
def clubDistances (courseShots : List ShotRecord) (club : String) : List ℚ :=
  ((courseShots.filter (fun s => clubKey s = some club)).filterMap distSample)

/-- `Math.round`: round half toward positive infinity. -/
def jsRound (q : ℚ) : Int :=
  ⌊q + 1/2⌋

/-- One entry of `clubInsights` (lines 833–838). -/
structure ClubInsight where
  club : String
  avg : Int
  profile : Int
  note : String
deriving Repr, DecidableEq

/-- The note attached to a club insight (lines 823–831), decided on the
unrounded average against the fixed reference distance of 150. -/
def clubNote (avg : ℚ) : String :=
  if avg - 150 < -10 then "User hits this short here"
  else if avg - 150 > 10 then "User hits this longer here"
  else "Distance matches profile"

/-- `clubInsights` (lines 794–839): clubs in first-appearance order, each
skipped unless it has at least one distance sample; the published average
is `Math.round` of the mean sample. -/
def clubInsights (courseShots : List ShotRecord) : List ClubInsight :=
  (uniq (courseShots.filterMap clubKey)).filterMap (fun c =>
    let ds := clubDistances courseShots c
    if ds.length = 0 then none
    else
      let avg : ℚ := ds.sum / (ds.length : ℚ)
      some { club := c, avg := jsRound avg, profile := 150, note := clubNote avg })

/-- `shot.shotContext?.conditions?.wind` (line 881), with falsy values
discarded as by `if (wind)`. -/
def windOf (shot : ShotRecord) : Option String :=
  match shot.shotContext.bind (fun c => c.conditions.bind (·.wind)) with
  | some w => if w = "" then none else some w
  | none => none

/-- `holeWind[w]` (lines 879–885): how many of the hole's shots recorded
wind `w`. -/
def windCount (holeShots : List ShotRecord) (w : String) : Nat :=
  (holeShots.filter (fun s => windOf s = some w)).length

/-- `holeWind["into"] || holeWind["strong"]` (line 887): the "into" count
when nonzero, otherwise the "strong" count. -/
def intoWindCount (holeShots : List ShotRecord) : Nat :=
  if windCount holeShots "into" > 0 then windCount holeShots "into"
  else windCount holeShots "strong"

/-- `surfaces["rough"] || 0` (line 870): shots whose context surface is
exactly `"rough"`. -/
def roughSurfaceCount (courseShots : List ShotRecord) : Nat :=
  ((contextsOf courseShots).filter (fun c => c.surface = some "rough")).length

/-- `Object.keys(elevations).filter(e => e.includes("+")).length`
(line 894): distinct truthy elevation values containing `+`. -/
def distinctUphillElevations (courseShots : List ShotRecord) : Nat :=
  ((uniq ((contextsOf courseShots).filterMap (fun c =>
    match c.conditions.bind (·.elevation) with
    | some e => if e = "" then none else some e
    | none => none))).filter (fun e => e.contains '+')).length

/-- One note pushed onto `aiNotes` (lines 842–906), in structured form. -/
inductive AiNote where
  | softFairways
  | windInto (hole : Int)
  | uphillCourse
  | positiveTrend
  | negativeTrend
deriving Repr, DecidableEq

/-- The note strings of lines 872, 889, 896, 903 and 905. -/
def renderAiNote : AiNote → String
  | .softFairways => "Fairways were soft on your last round."
  | .windInto hole => "Wind was into on Hole " ++ toString hole ++ " three rounds in a row."
  | .uphillCourse => "Course has several uphill holes. Consider club selection."
  | .positiveTrend => "AI recommendations have been working well on this course."
  | .negativeTrend => "AI recommendations may need adjustment for this course's conditions."

/-- `aiNotes` (lines 842–906), in push order: the soft-fairways note, the
per-hole wind notes (holes ascending), the uphill-course note, then the
feedback-trend note. -/
def aiNotes (courseShots : List ShotRecord) : List AiNote :=
  (if roughSurfaceCount courseShots ≥ 3 then [AiNote.softFairways] else []) ++
  ((holesOf courseShots).filterMap (fun h =>
    let c := intoWindCount (holeShotsOf courseShots h)
    if c > 0 ∧ c ≥ 3 then some (AiNote.windInto h) else none)) ++
  (if distinctUphillElevations courseShots ≥ 2 then [AiNote.uphillCourse] else []) ++
  (let hc := helpfulCount courseShots
   let oc := offCount courseShots
   if hc > oc * 2 ∧ hc ≥ 5 then [AiNote.positiveTrend]
   else if oc > hc ∧ oc ≥ 3 then [AiNote.negativeTrend]
   else [])

/-! ## Store-level theorems -/

theorem foldl_addShot (s0 : Store) (rs : List ShotRecord) :
    rs.foldl addShot s0 = s0 ++ rs := by
  induction rs generalizing s0 with
  | nil => simp
  | cons r rs ih => simp [addShot, ih]

theorem filter_id_singleton {rs : List ShotRecord}
    (hdist : rs.Pairwise (fun a b => a.id ≠ b.id)) {r : ShotRecord} (hr : r ∈ rs) :
    (rs.filter (fun x => x.id = r.id)).length = 1 := by
  induction rs with
  | nil => cases hr
  | cons a rs ih =>
      rw [List.pairwise_cons] at hdist
      obtain ⟨ha, hrs⟩ := hdist
      rcases List.mem_cons.mp hr with rfl | hr
      · have hnil : rs.filter (fun x => x.id = r.id) = [] := by
          rw [List.filter_eq_nil_iff]
          intro x hx
          simpa using (ha x hx).symm
        simp [List.filter_cons, hnil]
      · have hne : a.id ≠ r.id := ha r hr
        simp [List.filter_cons, hne, ih hrs hr]

/-- C1: concurrent `appendShot` safety.  Each `addShot` call is a fully
synchronous read-modify-write cycle (`fs.readFileSync` … `fs.writeFileSync`
with no intervening `await` or callback), so on the single-threaded
JavaScript runtime every call runs to completion before the next begins:
the possible concurrent executions are exactly the serial schedules,
modelled by folding the calls over an arbitrary arrival order `rs`.  For
every arrival order, every submitted record with a fresh unique id ends up
in the final store exactly once — no write lost, none duplicated — and
every pre-existing record survives. -/
theorem concurrent_append_safety (s0 : Store) (rs : List ShotRecord)
    (hfresh : ∀ r ∈ rs, ∀ r0 ∈ s0, r.id ≠ r0.id)
    (hdist : rs.Pairwise (fun a b => a.id ≠ b.id)) :
    (rs.foldl addShot s0).length = s0.length + rs.length ∧
    (∀ r0 ∈ s0, r0 ∈ rs.foldl addShot s0) ∧
    (∀ r ∈ rs, ((rs.foldl addShot s0).filter (fun x => x.id = r.id)).length = 1) := by
  rw [foldl_addShot]
  refine ⟨by simp, fun r0 h0 => List.mem_append_left _ h0, fun r hr => ?_⟩
  rw [List.filter_append, List.length_append]
  have h0 : s0.filter (fun x => x.id = r.id) = [] := by
    rw [List.filter_eq_nil_iff]
    intro x hx
    simpa using fun hxr => hfresh r hr x hx hxr.symm
  rw [h0]
  simpa using filter_id_singleton hdist hr

/-- Record used to instantiate witnesses: a minimal stored shot. -/
def plainRec (i : String) (course : String) (hole : Int) (fb : Option String) : ShotRecord :=
  { id := i
    courseId := course
    holeNumber := hole
    shotType := none
    recommendation := none
    shotContext := none
    clubUsed := none
    suggestedClub := none
    distance := none
    userFeedback := fb
    feedbackTimestamp := none
    timestamp := none
    uploadedAt := none }

theorem concurrent_append_safety_witness :
    ( [plainRec "s1" "pebble" 7 none, plainRec "s2" "pebble" 7 none].foldl addShot
        ([] : Store)).length = ([] : Store).length + 2 ∧
    (∀ r0 ∈ ([] : Store),
        r0 ∈ [plainRec "s1" "pebble" 7 none, plainRec "s2" "pebble" 7 none].foldl addShot []) ∧
    (∀ r ∈ [plainRec "s1" "pebble" 7 none, plainRec "s2" "pebble" 7 none],
        (([plainRec "s1" "pebble" 7 none, plainRec "s2" "pebble" 7 none].foldl addShot
            ([] : Store)).filter (fun x => x.id = r.id)).length = 1) :=
  concurrent_append_safety [] [plainRec "s1" "pebble" 7 none, plainRec "s2" "pebble" 7 none]
    (by intro r _ r0 h0; cases h0) (by decide)

theorem updateShotFeedback_not_found (now shotId feedback : String) (s : Store)
    (h : ∀ r ∈ s, r.id ≠ shotId) :
    updateShotFeedback now shotId feedback s = (s, false) := by
  induction s with
  | nil => rfl
  | cons a s ih =>
      have ha : ¬ a.id = shotId := h a (List.mem_cons_self a s)
      rw [updateShotFeedback, if_neg ha, ih (fun r hr => h r (List.mem_cons_of_mem a hr))]

/-- C7 (amended): for every store and every *nonempty* `shotId` that is
not the id of any stored record, the feedback endpoint acknowledges
success and leaves the store exactly as it was: no record mutated, none
appended.  (An empty-string `shotId` is falsy, hence treated by the
handler as absent: it takes the create-a-feedback-record branch instead —
see the counterexample.) -/
theorem feedback_unknown_id_noop (now : String) (nowMs : Nat) (newId : String)
    (sid : String) (courseId : String) (hole : Int) (suggestedClub : Option String)
    (feedback : String) (s : Store)
    (hsid : sid ≠ "")
    (hnotfound : ∀ r ∈ s, r.id ≠ sid) :
    submitFeedback now nowMs newId (some sid) courseId hole suggestedClub feedback s
      = (s, true) := by
  have ht : truthyS (some sid) = true := by simp [truthyS, hsid]
  rw [submitFeedback, if_pos ht]
  simp [updateShotFeedback_not_found now sid feedback s hnotfound]

theorem feedback_unknown_id_noop_witness :
    ("nonexistent" ≠ "" ∧ ∀ r ∈ [plainRec "s1" "pebble" 7 none], r.id ≠ "nonexistent") ∧
    submitFeedback "t0" 0 "fb1" (some "nonexistent") "pebble" 7 none "helpful"
        [plainRec "s1" "pebble" 7 none]
      = ([plainRec "s1" "pebble" 7 none], true) :=
  ⟨⟨by decide, by decide⟩,
    feedback_unknown_id_noop "t0" 0 "fb1" "nonexistent" "pebble" 7 none "helpful"
      [plainRec "s1" "pebble" 7 none] (by decide) (by decide)⟩

/-- C7 counterexample: the claim quantifies over *every* `shotId` that is
not a stored record's id.  The empty string is such a `shotId` (no record
of the empty store carries it), yet submitting feedback with it appends a
brand-new feedback record, because `if (shotId)` treats `""` as absent. -/
theorem feedback_empty_id_appends :
    (∀ r ∈ ([] : Store), r.id ≠ "") ∧
    (submitFeedback "t0" 0 "fb1" (some "") "pebble" 7 none "helpful" []).1 ≠ ([] : Store) := by
  refine ⟨fun r hr => absurd hr (List.not_mem_nil r), ?_⟩
  simp [submitFeedback, truthyS, addShot]

/-- C8: reading the store never raises.  An absent document is an empty
collection, and a document on which `JSON.parse` throws is logged and
treated as empty by the surrounding `catch`. -/
theorem loadShots_total (parse : String → Option Store) :
    loadShots none parse = [] ∧
    ∀ raw, parse raw = none → loadShots (some raw) parse = [] := by
  refine ⟨rfl, fun raw h => ?_⟩
  simp [loadShots, h]

theorem loadShots_total_witness :
    loadShots none (fun _ => none) = [] ∧
    loadShots (some "this is not JSON") (fun _ => none) = [] :=
  ⟨(loadShots_total (fun _ => none)).1,
    (loadShots_total (fun _ => none)).2 "this is not JSON" rfl⟩

/-- The stored-feedback invariant of spec §3. -/
def ValidFeedback (r : ShotRecord) : Prop :=
  r.userFeedback = none ∨ r.userFeedback = some "helpful" ∨ r.userFeedback = some "off"

theorem updateShotFeedback_valid (now sid feedback : String)
    (hfb : feedback = "helpful" ∨ feedback = "off") (s : Store)
    (hs : ∀ r ∈ s, ValidFeedback r) :
    ∀ r ∈ (updateShotFeedback now sid feedback s).1, ValidFeedback r := by
  induction s with
  | nil => intro r hr; cases hr
  | cons a s ih =>
      intro r hr
      rw [updateShotFeedback] at hr
      by_cases hid : a.id = sid
      · rw [if_pos hid] at hr
        rcases List.mem_cons.mp hr with rfl | hr
        · rcases hfb with h | h <;> [exact Or.inr (Or.inl (by simp [h]));
            exact Or.inr (Or.inr (by simp [h]))]
        · exact hs r (List.mem_cons_of_mem a hr)
      · rw [if_neg hid] at hr
        rcases List.mem_cons.mp hr with rfl | hr
        · exact hs _ (List.mem_cons_self _ _)
        · exact ih (fun x hx => hs x (List.mem_cons_of_mem _ hx)) r hr

/-- C9: every mutation path preserves `userFeedback ∈ {null, "helpful",
"off"}`.  The photo-analyze append always starts a record at `null`, and
the Feedback Updater — whether it updates an existing record or creates a
feedback-only record — writes the submitted verdict. -/
theorem userFeedback_invariant (s : Store) (hs : ∀ r ∈ s, ValidFeedback r)
    (feedback : String) (hfb : feedback = "helpful" ∨ feedback = "off") :
    (∀ (newId courseId : String) (hole : Int) (shotType : String)
        (clubUsed : Option String) (distance : Option ℚ) (rec : Recommendation)
        (ctx : ShotContext) (ts upAt : Option Nat),
        ∀ r ∈ addShot s (analyzeShotRecord newId courseId hole shotType clubUsed distance
            rec ctx ts upAt), ValidFeedback r) ∧
    (∀ (now : String) (nowMs : Nat) (newId : String) (shotId : Option String)
        (courseId : String) (hole : Int) (suggestedClub : Option String),
        ∀ r ∈ (submitFeedback now nowMs newId shotId courseId hole suggestedClub
            feedback s).1, ValidFeedback r) := by
  constructor
  · intro newId courseId hole shotType clubUsed distance rec ctx ts upAt r hr
    rcases List.mem_append.mp hr with hr | hr
    · exact hs r hr
    · rcases List.mem_singleton.mp hr with rfl
      exact Or.inl rfl
  · intro now nowMs newId shotId courseId hole suggestedClub r hr
    rw [submitFeedback] at hr
    by_cases ht : truthyS shotId = true
    · rw [if_pos ht] at hr
      exact updateShotFeedback_valid now (shotId.getD "") feedback hfb s hs r hr
    · rw [if_neg ht] at hr
      rcases List.mem_append.mp hr with hr | hr
      · exact hs r hr
      · rcases List.mem_singleton.mp hr with rfl
        rcases hfb with h | h <;> [exact Or.inr (Or.inl (by simp [feedbackOnlyRecord, h]));
          exact Or.inr (Or.inr (by simp [feedbackOnlyRecord, h]))]

theorem userFeedback_invariant_witness :
    ValidFeedback (feedbackOnlyRecord "fb1" "pebble" 7 (some "7 iron") "helpful" "t0" 0) :=
  ((userFeedback_invariant [] (fun r hr => absurd hr (List.not_mem_nil r))
      "helpful" (Or.inl rfl)).2 "t0" 0 "fb1" none "pebble" 7 (some "7 iron"))
    (feedbackOnlyRecord "fb1" "pebble" 7 (some "7 iron") "helpful" "t0" 0)
    (by simp [submitFeedback, truthyS, addShot])

/-! ## Relevance Matcher theorems -/

/-- C2 (amended): a record appears in `findRelevantShots` if and only if
it is stored, its `courseId` and `holeNumber` equal the query's exactly,
and every *truthy* (supplied and nonempty) `shotType` / `club` argument
equals the record's `shotType` / `recommendation?.club`.  A supplied but
empty-string `shotType` or `club` is falsy and behaves exactly like an
absent one — see the counterexample. -/
theorem findRelevantShots_mem_iff (courseId : String) (holeNumber : Int)
    (shotType club : Option String) (shots : Store) (r : ShotRecord) :
    r ∈ findRelevantShots courseId holeNumber shotType club shots ↔
      r ∈ shots ∧ r.courseId = courseId ∧ r.holeNumber = holeNumber ∧
      (truthyS shotType = true → r.shotType = shotType) ∧
      (truthyS club = true → recClub r = club) := by
  rw [findRelevantShots, mem_sortDescBy, List.mem_filter, matchesQuery_iff]

/-- A stored record whose recommendation names the club "7 iron". -/
def sevenIronRec : ShotRecord :=
  { id := "s1"
    courseId := "pebble"
    holeNumber := 7
    shotType := some "drive"
    recommendation := some { club := "7 iron", aim := "center fairway",
                             avoid := "left bunker", confidence := 1 }
    shotContext := none
    clubUsed := none
    suggestedClub := none
    distance := none
    userFeedback := none
    feedbackTimestamp := none
    timestamp := none
    uploadedAt := none }

/-- C2 counterexample: with the empty string supplied as `club`, the
record is included although its `recommendation.club` ("7 iron") does not
equal the supplied club — `if (club)` treats `""` as not supplied, so the
claim's "if and only if" fails for empty-string arguments. -/
theorem findRelevantShots_empty_club_included :
    sevenIronRec ∈ findRelevantShots "pebble" 7 none (some "") [sevenIronRec] ∧
    recClub sevenIronRec ≠ some "" := by
  constructor
  · show sevenIronRec ∈ sortDescBy bestTime
      ([sevenIronRec].filter (matchesQuery "pebble" 7 none (some "")))
    rw [mem_sortDescBy, List.mem_filter]
    exact ⟨List.mem_cons_self _ _, by decide⟩
  · decide

/-- C3: `findRelevantShots` returns its matches in descending order of
`bestTime` (`timestamp`, falling back to `uploadedAt`, falling back to
epoch); in particular three matching records with strictly increasing
timestamps t1 < t2 < t3 come back as [t3, t2, t1]. -/
theorem findRelevantShots_recency (courseId : String) (holeNumber : Int)
    (shotType club : Option String) :
    (∀ shots : Store,
        DescendingBy bestTime (findRelevantShots courseId holeNumber shotType club shots)) ∧
    (∀ r1 r2 r3 : ShotRecord,
        matchesQuery courseId holeNumber shotType club r1 = true →
        matchesQuery courseId holeNumber shotType club r2 = true →
        matchesQuery courseId holeNumber shotType club r3 = true →
        bestTime r1 < bestTime r2 → bestTime r2 < bestTime r3 →
        findRelevantShots courseId holeNumber shotType club [r1, r2, r3] = [r3, r2, r1]) := by
  refine ⟨fun shots => descendingBy_sortDescBy bestTime _, ?_⟩
  intro r1 r2 r3 h1 h2 h3 h12 h23
  have hfilter : [r1, r2, r3].filter (matchesQuery courseId holeNumber shotType club)
      = [r1, r2, r3] := by
    simp [List.filter_cons, h1, h2, h3]
  rw [findRelevantShots, hfilter]
  show insertDescBy bestTime r1 (insertDescBy bestTime r2 (insertDescBy bestTime r3
    (sortDescBy bestTime []))) = [r3, r2, r1]
  rw [sortDescBy]
  show insertDescBy bestTime r1 (insertDescBy bestTime r2 [r3]) = [r3, r2, r1]
  rw [insertDescBy, if_neg (not_le_of_lt h23)]
  show insertDescBy bestTime r1 (r3 :: [r2]) = [r3, r2, r1]
  rw [insertDescBy, if_neg (not_le_of_lt (lt_trans h12 h23))]
  rw [insertDescBy, if_neg (not_le_of_lt h12)]
  rfl

/-- Matching records carrying timestamps 1 < 2 < 3. -/
def timedRec (i : String) (t : Nat) : ShotRecord :=
  { plainRec i "pebble" 7 none with timestamp := some t }

theorem findRelevantShots_recency_witness :
    findRelevantShots "pebble" 7 none none
        [timedRec "s1" 1, timedRec "s2" 2, timedRec "s3" 3]
      = [timedRec "s3" 3, timedRec "s2" 2, timedRec "s1" 1] :=
  (findRelevantShots_recency "pebble" 7 none none).2
    (timedRec "s1" 1) (timedRec "s2" 2) (timedRec "s3" 3)
    (by decide) (by decide) (by decide) (by decide) (by decide)

/-! ## Insight Synthesizer theorems -/

/-- The records of one `(shotType, holeNumber)` group: the shot-type
bucket of `byShotType` filtered to one hole (lines 154–168). -/
def groupShots (shots : List ShotRecord) (t : String) (h : Int) : List ShotRecord :=
  (shots.filter (fun s => typeKey s = t)).filter (fun s => s.holeNumber = h)

theorem negPattern_not_mem_contextItems (hole : Int) (hs : List ShotRecord)
    (t : String) (h : Int) (o hc : Nat) (cl : List String) :
    InsightItem.negPattern t h o hc cl ∉ contextItemsOf hole hs := by
  rw [contextItemsOf]
  intro hmem
  rcases List.mem_append.mp hmem with hmem | hmem <;> (split_ifs at hmem <;> simp_all)

theorem posPattern_not_mem_contextItems (hole : Int) (hs : List ShotRecord)
    (t : String) (h : Int) (hc o : Nat) (cl : List String) :
    InsightItem.posPattern t h hc o cl ∉ contextItemsOf hole hs := by
  rw [contextItemsOf]
  intro hmem
  rcases List.mem_append.mp hmem with hmem | hmem <;> (split_ifs at hmem <;> simp_all)

theorem negPattern_mem_groupItems (t' : String) (h' : Int) (hs : List ShotRecord)
    (t : String) (h : Int) (o hc : Nat) (cl : List String) :
    InsightItem.negPattern t h o hc cl ∈ groupItems t' h' hs ↔
      t = t' ∧ h = h' ∧ o = offCount hs ∧ hc = helpfulCount hs ∧ cl = clubsUsed hs ∧
      0 < helpfulCount hs + offCount hs ∧ NegSignal hs := by
  rw [groupItems, List.mem_append]
  constructor
  · rintro (hmem | hmem)
    · rw [feedbackItemsOf] at hmem
      split_ifs at hmem with hp hn hq <;> simp_all
    · exact absurd hmem (negPattern_not_mem_contextItems h' hs t h o hc cl)
  · rintro ⟨rfl, rfl, rfl, rfl, rfl, hp, hn⟩
    left
    rw [feedbackItemsOf, if_pos hp, if_pos hn]
    exact List.mem_singleton.mpr rfl

theorem posPattern_mem_groupItems (t' : String) (h' : Int) (hs : List ShotRecord)
    (t : String) (h : Int) (hc o : Nat) (cl : List String) :
    InsightItem.posPattern t h hc o cl ∈ groupItems t' h' hs ↔
      t = t' ∧ h = h' ∧ hc = helpfulCount hs ∧ o = offCount hs ∧ cl = clubsUsed hs ∧
      0 < helpfulCount hs + offCount hs ∧ ¬NegSignal hs ∧ PosSignal hs := by
  rw [groupItems, List.mem_append]
  constructor
  · rintro (hmem | hmem)
    · rw [feedbackItemsOf] at hmem
      split_ifs at hmem with hp hn hq <;> simp_all
    · exact absurd hmem (posPattern_not_mem_contextItems h' hs t h hc o cl)
  · rintro ⟨rfl, rfl, rfl, rfl, rfl, hp, hn, hq⟩
    left
    rw [feedbackItemsOf, if_pos hp, if_neg hn, if_pos hq]
    exact List.mem_singleton.mpr rfl

theorem mem_insightItems (shots : List ShotRecord) (x : InsightItem) :
    x ∈ insightItems shots ↔
      ∃ t ∈ uniq (shots.map typeKey),
        ∃ h ∈ uniq ((shots.filter (fun s => typeKey s = t)).map (·.holeNumber)),
          x ∈ groupItems t h (groupShots shots t h) := by
  simp [insightItems, List.mem_flatMap, groupShots]

theorem group_tags_mem (shots : List ShotRecord) (t : String) (h : Int)
    (s : ShotRecord) (hsg : s ∈ groupShots shots t h) :
    t ∈ uniq (shots.map typeKey) ∧
    h ∈ uniq ((shots.filter (fun s => typeKey s = t)).map (·.holeNumber)) := by
  rcases List.mem_filter.mp hsg with ⟨hsf, hh⟩
  rcases List.mem_filter.mp hsf with ⟨hss, ht⟩
  refine ⟨(mem_uniq _ _).mpr ?_, (mem_uniq _ _).mpr ?_⟩
  · exact List.mem_map.mpr ⟨s, hss, by simpa using ht⟩
  · exact List.mem_map.mpr ⟨s, hsf, by simpa using hh⟩

theorem groupShots_sound (shots : List ShotRecord) (t : String) (h : Int)
    (hpos : 0 < helpfulCount (groupShots shots t h) + offCount (groupShots shots t h)) :
    ∃ s, s ∈ groupShots shots t h := by
  by_contra hempty
  push_neg at hempty
  have : groupShots shots t h = [] := List.eq_nil_iff_forall_not_mem.mpr hempty
  simp [helpfulCount, offCount, this] at hpos

/-- C4: for every `(shotType, hole)` group, the narrative carries a
negative-pattern sentence exactly when the helpful fraction is below 50%
with at least one "off", a positive-pattern sentence exactly when the
helpful fraction is at least 70% with at least two "helpful", and no
feedback-statistic sentence otherwise; in particular a group with exactly
one "helpful" and one "off" (50%) yields neither. -/
theorem insight_feedback_statistics (shots : List ShotRecord) (t : String) (h : Int) :
    ((∃ o hc cl, InsightItem.negPattern t h o hc cl ∈ insightItems shots) ↔
        NegSignal (groupShots shots t h)) ∧
    ((∃ hc o cl, InsightItem.posPattern t h hc o cl ∈ insightItems shots) ↔
        PosSignal (groupShots shots t h)) ∧
    (helpfulCount (groupShots shots t h) = 1 → offCount (groupShots shots t h) = 1 →
      (∀ o hc cl, InsightItem.negPattern t h o hc cl ∉ insightItems shots) ∧
      (∀ hc o cl, InsightItem.posPattern t h hc o cl ∉ insightItems shots)) := by
  have tags : ∀ hpos : 0 < helpfulCount (groupShots shots t h) + offCount (groupShots shots t h),
      t ∈ uniq (shots.map typeKey) ∧
      h ∈ uniq ((shots.filter (fun s => typeKey s = t)).map (·.holeNumber)) := by
    intro hpos
    obtain ⟨s, hsmem⟩ := groupShots_sound shots t h hpos
    exact group_tags_mem shots t h s hsmem
  have hneg : (∃ o hc cl, InsightItem.negPattern t h o hc cl ∈ insightItems shots) ↔
      NegSignal (groupShots shots t h) := by
    constructor
    · rintro ⟨o, hc, cl, hmem⟩
      rw [mem_insightItems] at hmem
      obtain ⟨t', _, h', _, hg⟩ := hmem
      obtain ⟨rfl, rfl, _, _, _, _, hn⟩ := (negPattern_mem_groupItems t' h' _ t h o hc cl).mp hg
      exact hn
    · intro hn
      have hpos : 0 < helpfulCount (groupShots shots t h) + offCount (groupShots shots t h) :=
        lt_of_lt_of_le hn.2 (Nat.le_add_left _ _)
      obtain ⟨ht, hh⟩ := tags hpos
      refine ⟨offCount (groupShots shots t h), helpfulCount (groupShots shots t h),
        clubsUsed (groupShots shots t h), ?_⟩
      rw [mem_insightItems]
      exact ⟨t, ht, h, hh, (negPattern_mem_groupItems t h _ t h _ _ _).mpr
        ⟨rfl, rfl, rfl, rfl, rfl, hpos, hn⟩⟩
  have hposIff : (∃ hc o cl, InsightItem.posPattern t h hc o cl ∈ insightItems shots) ↔
      PosSignal (groupShots shots t h) := by
    constructor
    · rintro ⟨hc, o, cl, hmem⟩
      rw [mem_insightItems] at hmem
      obtain ⟨t', _, h', _, hg⟩ := hmem
      obtain ⟨rfl, rfl, _, _, _, _, _, hq⟩ := (posPattern_mem_groupItems t' h' _ t h hc o cl).mp hg
      exact hq
    · intro hq
      have hpos : 0 < helpfulCount (groupShots shots t h) + offCount (groupShots shots t h) :=
        lt_of_lt_of_le (lt_of_lt_of_le Nat.zero_lt_two hq.2) (Nat.le_add_right _ _)
      obtain ⟨ht, hh⟩ := tags hpos
      have hnotneg : ¬ NegSignal (groupShots shots t h) := by
        rintro ⟨hlt, _⟩
        have := hq.1
        linarith
      refine ⟨helpfulCount (groupShots shots t h), offCount (groupShots shots t h),
        clubsUsed (groupShots shots t h), ?_⟩
      rw [mem_insightItems]
      exact ⟨t, ht, h, hh, (posPattern_mem_groupItems t h _ t h _ _ _).mpr
        ⟨rfl, rfl, rfl, rfl, rfl, hpos, hnotneg, hq⟩⟩
  refine ⟨hneg, hposIff, fun h1 h2 => ⟨?_, ?_⟩⟩
  · intro o hc cl hmem
    have hn := hneg.mp ⟨o, hc, cl, hmem⟩
    rw [NegSignal, h1, h2] at hn
    norm_num at hn
  · intro hc o cl hmem
    have hq := hposIff.mp ⟨hc, o, cl, hmem⟩
    rw [PosSignal, h1, h2] at hq
    norm_num at hq

/-- A one-"helpful"-one-"off" group on hole 5 of shot type "approach". -/
def mixedShots : List ShotRecord :=
  [{ plainRec "a" "pebble" 5 (some "helpful") with shotType := some "approach" },
   { plainRec "b" "pebble" 5 (some "off") with shotType := some "approach" }]

theorem insight_feedback_statistics_witness :
    (helpfulCount (groupShots mixedShots "approach" 5) = 1 ∧
     offCount (groupShots mixedShots "approach" 5) = 1) ∧
    (∀ o hc cl, InsightItem.negPattern "approach" 5 o hc cl ∉ insightItems mixedShots) ∧
    (∀ hc o cl, InsightItem.posPattern "approach" 5 hc o cl ∉ insightItems mixedShots) :=
  ⟨⟨by decide, by decide⟩,
    (insight_feedback_statistics mixedShots "approach" 5).2.2 (by decide) (by decide)⟩

/-! ## Course Intelligence theorems -/

/-- A hole group with three "off" and one "helpful" feedbacks. -/
def threeOffOneHelpful : List ShotRecord :=
  [plainRec "a" "pebble" 4 (some "off"),
   plainRec "b" "pebble" 4 (some "off"),
   plainRec "c" "pebble" 4 (some "off"),
   plainRec "d" "pebble" 4 (some "helpful")]

/-- C5: for every hole group the tricky score equals
`2 × (offCount / totalFeedbackCount)` exactly when there is feedback and
the negative share is a strict majority, else 0; the 3-off-1-helpful group
scores 1.5, formatted "1.5"; and `trickyHoles` is sorted descending by
score. -/
theorem trickyHoles_scoring :
    (∀ hs : List ShotRecord,
        trickyScore hs =
          if 0 < feedbackCount hs ∧
              (offCount hs : ℚ) / (feedbackCount hs : ℚ) > 1/2 then
            2 * ((offCount hs : ℚ) / (feedbackCount hs : ℚ))
          else 0) ∧
    (trickyScore threeOffOneHelpful = 3/2 ∧
      formatFixed1 (trickyScore threeOffOneHelpful) = "1.5") ∧
    (∀ courseShots : List ShotRecord,
        DescendingBy (fun t => t.score) (trickyHoles courseShots)) := by
  have hoff : offCount threeOffOneHelpful = 3 := by decide
  have hfb : feedbackCount threeOffOneHelpful = 4 := by decide
  have hscore : trickyScore threeOffOneHelpful = 3/2 := by
    simp only [trickyScore, hoff, hfb]
    norm_num
  have hformat : formatFixed1 (trickyScore threeOffOneHelpful) = "1.5" := by
    rw [hscore]
    simp only [formatFixed1]
    have hfloor : ⌊(3/2 : ℚ) * 10 + 1/2⌋ = (15 : Int) := by
      rw [show (3/2 : ℚ) * 10 + 1/2 = (31 : ℚ)/2 by norm_num, Int.floor_eq_iff]
      norm_num
    rw [hfloor]
    rfl
  refine ⟨fun hs => ?_, ⟨hscore, hformat⟩,
    fun courseShots => descendingBy_sortDescBy _ _⟩
  rw [trickyScore]
  by_cases hp : 0 < feedbackCount hs
  · rw [if_pos hp]
    by_cases hm : (offCount hs : ℚ) / (feedbackCount hs : ℚ) > 1/2
    · rw [if_pos hm, if_pos ⟨hp, hm⟩]
      ring
    · rw [if_neg hm, if_neg (fun hc => hm hc.2)]
  · rw [if_neg hp, if_neg (fun hc => hp hc.1)]

theorem mem_holesOf (courseShots : List ShotRecord) (h : Int) :
    h ∈ holesOf courseShots ↔ ∃ s ∈ courseShots, s.holeNumber = h := by
  simp [holesOf, mem_sortDescBy, mem_uniq, List.mem_map]

/-- C6 (amended): the wind note for hole N appears exactly when the hole
has at least 3 shots with wind "into", or no "into" shots at all and at
least 3 with wind "strong".  The source computes
`holeWind["into"] || holeWind["strong"]`, which is the "into" count when
nonzero and the "strong" count otherwise — the two counts are never added
together (see the counterexample). -/
theorem windInto_note_iff (courseShots : List ShotRecord) (h : Int) :
    AiNote.windInto h ∈ aiNotes courseShots ↔
      3 ≤ windCount (holeShotsOf courseShots h) "into" ∨
      (windCount (holeShotsOf courseShots h) "into" = 0 ∧
       3 ≤ windCount (holeShotsOf courseShots h) "strong") := by
  have hcount : ∀ hs : List ShotRecord,
      (0 < intoWindCount hs ∧ 3 ≤ intoWindCount hs) ↔
        (3 ≤ windCount hs "into" ∨ (windCount hs "into" = 0 ∧ 3 ≤ windCount hs "strong")) := by
    intro hs
    rw [intoWindCount]
    by_cases hi : 0 < windCount hs "into"
    · rw [if_pos hi]
      constructor
      · rintro ⟨_, h3⟩
        exact Or.inl h3
      · rintro (h3 | ⟨h0, _⟩)
        · exact ⟨hi, h3⟩
        · omega
    · rw [if_neg hi]
      constructor
      · rintro ⟨hpos, h3⟩
        exact Or.inr ⟨by omega, h3⟩
      · rintro (h3 | ⟨_, h3⟩)
        · omega
        · exact ⟨by omega, h3⟩
  rw [aiNotes]
  simp only [List.mem_append]
  constructor
  · rintro (((hmem | hmem) | hmem) | hmem)
    · split_ifs at hmem <;> simp_all
    · rcases List.mem_filterMap.mp hmem with ⟨h', hh', heq⟩
      split_ifs at heq with hcond
      · injection heq with heq1
        injection heq1 with heq2
        subst heq2
        exact (hcount _).mp hcond
    · split_ifs at hmem <;> simp_all
    · split_ifs at hmem <;> simp_all
  · intro hrhs
    have hcond := (hcount (holeShotsOf courseShots h)).mpr hrhs
    have hlen : 0 < (holeShotsOf courseShots h).length := by
      have h3 : 3 ≤ intoWindCount (holeShotsOf courseShots h) := hcond.2
      rw [intoWindCount] at h3
      split_ifs at h3 <;>
        calc 0 < 3 := by omega
          _ ≤ _ := le_trans h3 (List.length_filter_le _ _)
    obtain ⟨s, hsmem⟩ := List.exists_mem_of_length_pos hlen
    have hh : h ∈ holesOf courseShots := by
      rw [mem_holesOf]
      rcases List.mem_filter.mp hsmem with ⟨hss, hsh⟩
      exact ⟨s, hss, by simpa using hsh⟩
    refine Or.inl (Or.inl (Or.inr (List.mem_filterMap.mpr ⟨h, hh, ?_⟩)))
    rw [if_pos hcond]

/-- A shot on hole 4 whose context records the given wind. -/
def windShot (i : String) (w : String) : ShotRecord :=
  { plainRec i "pebble" 4 none with
      shotContext := some { surface := none,
                            conditions := some { wind := some w, elevation := none } } }

/-- Two "into" shots and one "strong" shot on the same hole. -/
def twoIntoOneStrong : List ShotRecord :=
  [windShot "a" "into", windShot "b" "into", windShot "c" "strong"]

/-- C6 counterexample: hole 4 accumulates 3 shots whose wind is "into" or
"strong" (2 + 1), so the claim requires the wind note — but the code
evaluates `holeWind["into"] || holeWind["strong"]` to 2 (the "into" count
short-circuits) and emits nothing. -/
theorem windInto_combined_count_no_note :
    windCount (holeShotsOf twoIntoOneStrong 4) "into" +
      windCount (holeShotsOf twoIntoOneStrong 4) "strong" = 3 ∧
    AiNote.windInto 4 ∉ aiNotes twoIntoOneStrong := by
  exact ⟨by decide, by decide⟩

/-- A record whose recorded distance is exactly zero, rewritten to carry
no distance at all. -/
def zeroDistToAbsent (s : ShotRecord) : ShotRecord :=
  if s.distance = some 0 then { s with distance := none } else s

theorem clubKey_zeroDistToAbsent (s : ShotRecord) :
    clubKey (zeroDistToAbsent s) = clubKey s := by
  rw [zeroDistToAbsent]
  split_ifs <;> rfl

theorem distSample_zeroDistToAbsent (s : ShotRecord) :
    distSample (zeroDistToAbsent s) = distSample s := by
  rw [zeroDistToAbsent]
  split_ifs with h
  · simp [distSample, h]
  · rfl

theorem clubDistances_map_zero (shots : List ShotRecord) (c : String) :
    clubDistances (shots.map zeroDistToAbsent) c = clubDistances shots c := by
  rw [clubDistances, clubDistances, List.filter_map, List.filterMap_map]
  simp only [Function.comp_def, clubKey_zeroDistToAbsent, distSample_zeroDistToAbsent]

theorem distSample_ne_none_iff (s : ShotRecord) :
    distSample s ≠ none ↔ ∃ d, s.distance = some d ∧ d ≠ 0 := by
  cases hd : s.distance with
  | none => simp [distSample, hd]
  | some d => by_cases h0 : d = 0 <;> simp [distSample, hd, h0]

theorem clubInsights_zero_eq (shots : List ShotRecord) :
    clubInsights (shots.map zeroDistToAbsent) = clubInsights shots := by
  rw [clubInsights, clubInsights, List.filterMap_map]
  simp only [Function.comp_def, clubKey_zeroDistToAbsent, clubDistances_map_zero]

theorem clubInsights_mem_iff (shots : List ShotRecord) (c : String) :
    (∃ e ∈ clubInsights shots, e.club = c) ↔
      ∃ s ∈ shots, clubKey s = some c ∧ ∃ d, s.distance = some d ∧ d ≠ 0 := by
  constructor
  · rintro ⟨e, hmem, hec⟩
    rw [clubInsights] at hmem
    rcases List.mem_filterMap.mp hmem with ⟨c', hc', heq⟩
    replace heq : (if (clubDistances shots c').length = 0 then (none : Option ClubInsight)
        else some { club := c'
                    avg := jsRound ((clubDistances shots c').sum /
                      ((clubDistances shots c').length : ℚ))
                    profile := 150
                    note := clubNote ((clubDistances shots c').sum /
                      ((clubDistances shots c').length : ℚ)) }) = some e := heq
    split_ifs at heq with hlen
    injection heq with heq
    have hclub : c' = c := by rw [← hec, ← heq]
    subst hclub
    have hnil : clubDistances shots c' ≠ [] := fun hn => hlen (by rw [hn]; rfl)
    rw [clubDistances] at hnil
    have : ∃ s ∈ shots.filter (fun x => clubKey x = some c'), distSample s ≠ none := by
      by_contra hall
      push_neg at hall
      exact hnil (List.filterMap_eq_nil_iff.mpr hall)
    obtain ⟨s, hsf, hds⟩ := this
    rcases List.mem_filter.mp hsf with ⟨hss, hsc⟩
    exact ⟨s, hss, by simpa using hsc, (distSample_ne_none_iff s).mp hds⟩
  · rintro ⟨s, hs, hck, d, hd, hd0⟩
    have hsample : distSample s ≠ none := (distSample_ne_none_iff s).mpr ⟨d, hd, hd0⟩
    have hsf : s ∈ shots.filter (fun x => clubKey x = some c) :=
      List.mem_filter.mpr ⟨hs, by simpa using hck⟩
    have hnil : clubDistances shots c ≠ [] := by
      rw [clubDistances]
      intro hn
      exact hsample (List.filterMap_eq_nil_iff.mp hn s hsf)
    have hlen : ¬ (clubDistances shots c).length = 0 := by
      simpa [List.length_eq_zero] using hnil
    have hcu : c ∈ uniq (shots.filterMap clubKey) :=
      (mem_uniq _ _).mpr (List.mem_filterMap.mpr ⟨s, hs, hck⟩)
    refine ⟨{ club := c
              avg := jsRound ((clubDistances shots c).sum /
                ((clubDistances shots c).length : ℚ))
              profile := 150
              note := clubNote ((clubDistances shots c).sum /
                ((clubDistances shots c).length : ℚ)) }, ?_, rfl⟩
    rw [clubInsights]
    refine List.mem_filterMap.mpr ⟨c, hcu, ?_⟩
    show (if (clubDistances shots c).length = 0 then (none : Option ClubInsight)
        else some _) = some _
    rw [if_neg hlen]

/-- C10: a shot's distance contributes to its club's average only when it
is present and nonzero — replacing every zero distance by an absent one
leaves `clubInsights` unchanged — and a club produces an entry exactly
when some shot of that club carries a present, nonzero distance (so a
club all of whose shots have absent or zero distance has no entry). -/
theorem clubInsights_distance_truthiness (shots : List ShotRecord) :
    clubInsights (shots.map zeroDistToAbsent) = clubInsights shots ∧
    ∀ c : String, (∃ e ∈ clubInsights shots, e.club = c) ↔
      ∃ s ∈ shots, clubKey s = some c ∧ ∃ d, s.distance = some d ∧ d ≠ 0 :=
  ⟨clubInsights_zero_eq shots, fun c => clubInsights_mem_iff shots c⟩

theorem findRelevantShots_mem_iff_witness :
    sevenIronRec ∈ findRelevantShots "pebble" 7 (some "drive") (some "7 iron")
      [sevenIronRec] :=
  (findRelevantShots_mem_iff "pebble" 7 (some "drive") (some "7 iron")
      [sevenIronRec] sevenIronRec).mpr
    ⟨List.mem_cons_self _ _, rfl, rfl, fun _ => rfl, fun _ => rfl⟩
